import Mathlib

/-!
Verification of the Windows native MIDI streaming module
(source file: source/Win32/i_winmusic.cpp).

The C code is shallowly embedded: machine integers become natural numbers
(no overflow is reachable at the sizes involved), the C float
volume factor becomes an exact rational, arrays become lists, and the
module-level mutable state becomes an explicit state record threaded
through the operations.
-/

/- ### Constants

Event-type and controller values come from the external MIDI file parser
header (midifile.h, standard MIDI status bytes); MEVT values come from the
Windows multimedia headers. -/

def MIDI_EVENT_NOTE_OFF : ℕ := 0x80
def MIDI_EVENT_NOTE_ON : ℕ := 0x90
def MIDI_EVENT_AFTERTOUCH : ℕ := 0xa0
def MIDI_EVENT_CONTROLLER : ℕ := 0xb0
def MIDI_EVENT_PROGRAM_CHANGE : ℕ := 0xc0
def MIDI_EVENT_CHAN_AFTERTOUCH : ℕ := 0xd0
def MIDI_EVENT_PITCH_BEND : ℕ := 0xe0
def MIDI_EVENT_META : ℕ := 0xff

def MIDI_META_SET_TEMPO : ℕ := 0x51
def MIDI_CONTROLLER_MAIN_VOLUME : ℕ := 0x07

def MEVT_SHORTMSG : ℕ := 0x00
def MEVT_TEMPO : ℕ := 0x01

def MIDI_CHANNELS_PER_TRACK : ℕ := 16

/-- Maximum of 4 events in the buffer for faster volume updates. -/
def STREAM_MAX_EVENTS : ℕ := 4

/-- Modelled from the spec: the coarse UI volume scale maximum
(SND_MAXVOLUME, defined in a header outside the provided sources); the
spec maps raw levels 1..max linearly onto the 0.20..0.75 factor range. -/
def SND_MAXVOLUME : ℕ := 16

/- ### Data model -/

/-- A parsed MIDI event as produced by the external track iterator
(midi_event_t of midifile.h): a delta time, a raw event-type byte and the
union payload fields the streaming code reads (meta type and data bytes,
or channel/param1/param2 of a channel voice event). -/
structure midi_event_t where
  delta_time : ℕ
  event_type : ℕ
  meta_type : ℕ
  meta_data : List ℕ
  channel : ℕ
  param1 : ℕ
  param2 : ℕ
deriving Repr, DecidableEq

/-- Reduced Windows MIDIEVENT structure for MEVT_F_SHORT events. -/
structure native_event_t where
  dwDeltaTime : ℕ
  dwStreamID : ℕ
  dwEvent : ℕ
deriving Repr, DecidableEq

/-- Per-track merge cursor (win_midi_track_t): the iterator is the list of
not-yet-consumed events of the track, or none once the iterator has been
freed; plus the track's running absolute time. -/
structure win_midi_track_t where
  iter : Option (List midi_event_t)
  absolute_time : ℕ
deriving Repr, DecidableEq

def default_track : win_midi_track_t := ⟨none, 0⟩

/-- Modelled from the spec: the external iterator reports the time until
its next event (MIDI_GetDeltaTime); an exhausted iterator reports 0. -/
def MIDI_GetDeltaTime : List midi_event_t → ℕ
  | [] => 0
  | e :: _ => e.delta_time

/-- Modelled from the spec: the external iterator consumes and returns its
next event (MIDI_GetNextEvent), failing once the track is exhausted. -/
def MIDI_GetNextEvent : List midi_event_t → Option (midi_event_t × List midi_event_t)
  | [] => none
  | e :: rest => some (e, rest)

/-- Modelled from the spec: total event count reported by the file
(MIDI_NumEvents), used for allocation sizing. -/
def MIDI_NumEvents (tracks : List (List midi_event_t)) : ℕ :=
  (tracks.map List.length).sum

/- ### Macros for the Windows MIDIEVENT dwEvent field -/

def MIDIEVENT_CHANNEL (x : ℕ) : ℕ := x &&& 0x0000000F
def MIDIEVENT_TYPE (x : ℕ) : ℕ := x &&& 0x000000F0
def MIDIEVENT_DATA1 (x : ℕ) : ℕ := (x &&& 0x0000FF00) >>> 8
def MIDIEVENT_VOLUME (x : ℕ) : ℕ := (x &&& 0x007F0000) >>> 16

/- ### Track merger (MIDItoStream) -/

/-- The packed dwEvent word MIDItoStream computes for one consumed event
(the switch on event_type); 0 means the event kind is unsupported and the
event is dropped. -/
def eventToData (event : midi_event_t) : ℕ :=
  if event.event_type = MIDI_EVENT_META then
    if event.meta_type = MIDI_META_SET_TEMPO then
      event.meta_data.getD 2 0 |||
        (event.meta_data.getD 1 0 <<< 8) |||
        (event.meta_data.getD 0 0 <<< 16) |||
        (MEVT_TEMPO <<< 24)
    else 0
  else if event.event_type = MIDI_EVENT_NOTE_OFF ∨
          event.event_type = MIDI_EVENT_NOTE_ON ∨
          event.event_type = MIDI_EVENT_AFTERTOUCH ∨
          event.event_type = MIDI_EVENT_CONTROLLER ∨
          event.event_type = MIDI_EVENT_PITCH_BEND then
    event.event_type |||
      event.channel |||
      (event.param1 <<< 8) |||
      (event.param2 <<< 16) |||
      (MEVT_SHORTMSG <<< 24)
  else if event.event_type = MIDI_EVENT_PROGRAM_CHANGE ∨
          event.event_type = MIDI_EVENT_CHAN_AFTERTOUCH then
    event.event_type |||
      event.channel |||
      (event.param1 <<< 8) |||
      (0 <<< 16) |||
      (MEVT_SHORTMSG <<< 24)
  else 0

/-- The (index, candidate absolute time) pairs of the still-open tracks, in
index order: the candidates the minimum scan of MIDItoStream ranges over
(closed iterators are skipped by the continue). -/
def candidates : List win_midi_track_t → ℕ → List (ℕ × ℕ)
  | [], _ => []
  | t :: rest, i =>
    match t.iter with
    | none => candidates rest (i + 1)
    | some l => (i, t.absolute_time + MIDI_GetDeltaTime l) :: candidates rest (i + 1)

/-- The minimum scan of MIDItoStream: a strict less-than update starting
from INT_MAX / idx = -1, so the first candidate achieving the minimum time
(the lowest-indexed open track) wins ties. The unreachable INT_MAX
overflow case is not modelled. -/
def pickMin : Option (ℕ × ℕ) → List (ℕ × ℕ) → Option (ℕ × ℕ)
  | best, [] => best
  | best, (i, time) :: rest =>
    match best with
    | none => pickMin (some (i, time)) rest
    | some (bi, bt) =>
      if time < bt then pickMin (some (i, time)) rest
      else pickMin (some (bi, bt)) rest

/-- One scan of all tracks for the event with minimal candidate absolute
time; none models idx = -1 (no open track left). -/
def scanMin (tracks : List win_midi_track_t) : Option (ℕ × ℕ) :=
  pickMin none (candidates tracks 0)

/-- Termination measure for the merge loop: every iteration either
consumes one event or frees one exhausted iterator. -/
def trackMeasure (tracks : List win_midi_track_t) : ℕ :=
  (tracks.map (fun t =>
    match t.iter with
    | none => 0
    | some l => l.length + 1)).sum

/-- The MIDItoStream merge loop, with explicit fuel standing for the C
while(1) (the wrapper supplies fuel equal to the termination measure, which
is provably sufficient).  Each output entry carries the absolute time
min_time at which the event was emitted next to the emitted native event;
the song array is the list of second components. -/
def MIDItoStreamFuel : ℕ → List win_midi_track_t → ℕ → List (ℕ × native_event_t)
  | 0, _, _ => []
  | fuel + 1, tracks, current_time =>
    match scanMin tracks with
    | none => []
    | some (idx, min_time) =>
      let t0 := tracks.getD idx default_track
      let t1 : win_midi_track_t := { t0 with absolute_time := min_time }
      match t0.iter with
      | none => MIDItoStreamFuel fuel (tracks.set idx t1) current_time
      | some l =>
        match MIDI_GetNextEvent l with
        | none =>
          MIDItoStreamFuel fuel (tracks.set idx { t1 with iter := none }) current_time
        | some (event, rest) =>
          let tracks1 := tracks.set idx { t1 with iter := some rest }
          let data := eventToData event
          if data ≠ 0 then
            (min_time, ⟨min_time - current_time, 0, data⟩) ::
              MIDItoStreamFuel fuel tracks1 min_time
          else
            MIDItoStreamFuel fuel tracks1 current_time

/-- The per-track initial merge state set up by MIDItoStream: a live
iterator over each track and absolute time 0. -/
def initTracks (file : List (List midi_event_t)) : List win_midi_track_t :=
  file.map (fun l => ⟨some l, 0⟩)

/-- MIDItoStream on a parsed file (list of per-track event lists),
annotated with the absolute emission times. -/
def MIDItoStreamTimed (file : List (List midi_event_t)) : List (ℕ × native_event_t) :=
  MIDItoStreamFuel (trackMeasure (initTracks file)) (initTracks file) 0

/-- The flat native event array MIDItoStream stores into the song. -/
def MIDItoStream (file : List (List midi_event_t)) : List native_event_t :=
  (MIDItoStreamTimed file).map Prod.snd

/- ### Song, buffer and volume state -/

/-- win_midi_song_t: the flat merged event array, its count, the play
cursor and the looping flag. -/
structure win_midi_song_t where
  native_events : List native_event_t
  num_events : ℕ
  position : ℕ
  looping : Bool
deriving Repr, DecidableEq

/-- The 128-entry volume correction table. -/
def volume_correction : List ℕ := [
    0,   4,   7,  11,  13,  14,  16,  18,
   21,  22,  23,  24,  24,  24,  25,  25,
   25,  26,  26,  27,  27,  27,  28,  28,
   29,  29,  29,  30,  30,  31,  31,  32,
   32,  32,  33,  33,  34,  34,  35,  35,
   36,  37,  37,  38,  38,  39,  39,  40,
   40,  41,  42,  42,  43,  43,  44,  45,
   45,  46,  47,  47,  48,  49,  49,  50,
   51,  52,  52,  53,  54,  55,  56,  56,
   57,  58,  59,  60,  61,  62,  62,  63,
   64,  65,  66,  67,  68,  69,  70,  71,
   72,  73,  74,  75,  77,  78,  79,  80,
   81,  82,  84,  85,  86,  87,  89,  90,
   91,  92,  94,  95,  96,  98,  99, 101,
  102, 104, 105, 107, 108, 110, 112, 113,
  115, 117, 118, 120, 122, 123, 125, 127]

/-- Initial value of the static volume_factor (float 1.0, modelled as an
exact rational). -/
def volume_factor_init : ℚ := 1

/-- The module-level mutable state the streaming operations touch: the
current song, the per-channel last-seen volumes (channel_volume) and the
global scale factor (volume_factor). -/
structure playerState where
  song : win_midi_song_t
  channel_volume : List ℕ
  volume_factor : ℚ
deriving Repr, DecidableEq

/-- The C int conversion int(float(v) * volume_factor): truncation of the
product toward zero (the product is never negative here). -/
def volIndex (v : ℕ) (f : ℚ) : ℕ := (⌊(v : ℚ) * f⌋).toNat

/-- The body of one FillBuffer loop iteration once the cursor is known to
be in range: copy the event at the cursor, and for a main-volume
controller event record the raw channel volume and substitute the
corrected volume in the copied event; then advance the cursor. -/
def FillStep (s : playerState) : native_event_t × playerState :=
  let event := s.song.native_events.getD s.song.position ⟨0, 0, 0⟩
  if MIDIEVENT_TYPE event.dwEvent = MIDI_EVENT_CONTROLLER ∧
     MIDIEVENT_DATA1 event.dwEvent = MIDI_CONTROLLER_MAIN_VOLUME then
    let volume := MIDIEVENT_VOLUME event.dwEvent
    let cv := s.channel_volume.set (MIDIEVENT_CHANNEL event.dwEvent) volume
    let volume2 := volume_correction.getD (volIndex volume s.volume_factor) 0
    let event2 := { event with
      dwEvent := (event.dwEvent &&& 0xFF00FFFF) ||| ((volume2 &&& 0x7F) <<< 16) }
    (event2,
     { s with channel_volume := cv,
              song := { s.song with position := s.song.position + 1 } })
  else
    (event, { s with song := { s.song with position := s.song.position + 1 } })

/-- The FillBuffer loop on the remaining iteration count: at each slot,
a cursor at or past the end either wraps to 0 (looping) or stops the fill
(non-looping break). Returns the filled window and the updated state. -/
def FillBufferAux : ℕ → playerState → List native_event_t × playerState
  | 0, s => ([], s)
  | n + 1, s =>
    if s.song.position ≥ s.song.num_events then
      if s.song.looping then
        let s0 : playerState := { s with song := { s.song with position := 0 } }
        let r := FillStep s0
        let rec1 := FillBufferAux n r.2
        (r.1 :: rec1.1, rec1.2)
      else ([], s)
    else
      let r := FillStep s
      let rec1 := FillBufferAux n r.2
      (r.1 :: rec1.1, rec1.2)

/-- FillBuffer: fill up to STREAM_MAX_EVENTS slots; the length of the
returned window is the buffer.num_events count the C code records. -/
def FillBuffer (s : playerState) : List native_event_t × playerState :=
  FillBufferAux STREAM_MAX_EVENTS s

/-- Iterated fills: the list of successive windows produced by n calls to
FillBuffer, with the state threaded through. -/
def fillN : ℕ → playerState → List (List native_event_t) × playerState
  | 0, s => ([], s)
  | n + 1, s =>
    let r := FillBuffer s
    let rest := fillN n r.2
    (r.1 :: rest.1, rest.2)

/-- The pure per-event transformation a fill applies to a stored event at
a fixed scale factor (the copied window entry as a function of the stored
event alone; the channel_volume write is a side effect that does not feed
back into the emitted events). -/
def adjustEvent (f : ℚ) (event : native_event_t) : native_event_t :=
  if MIDIEVENT_TYPE event.dwEvent = MIDI_EVENT_CONTROLLER ∧
     MIDIEVENT_DATA1 event.dwEvent = MIDI_CONTROLLER_MAIN_VOLUME then
    let volume2 := volume_correction.getD (volIndex (MIDIEVENT_VOLUME event.dwEvent) f) 0
    { event with dwEvent := (event.dwEvent &&& 0xFF00FFFF) ||| ((volume2 &&& 0x7F) <<< 16) }
  else event

/-- A buffer submission to the device (midiStreamOut call): the events and
the dwBytesRecorded field (count times the 12-byte native event size). -/
structure submission where
  events : List native_event_t
  bytesRecorded : ℕ
deriving Repr, DecidableEq

/-- StreamOut: submit the filled window to the device, or nothing at all
(no midiStreamOut call) when the filled count is 0. -/
def StreamOut (filled : List native_event_t) : Option submission :=
  if filled.length = 0 then none
  else some ⟨filled, filled.length * 12⟩

/- ### Volume control (I_WIN_SetMusicVolume) -/

/-- The new volume_factor computed by I_WIN_SetMusicVolume: 0 exactly for
a zero level, otherwise linear interpolation of levels 1..SND_MAXVOLUME
onto MIDI_MINVOL..MIDI_MAXVOL (0.20..0.75).  Float arithmetic is modelled
as exact rational arithmetic. -/
def setFactor (volume : ℕ) : ℚ :=
  if volume ≠ 0 then
    let MIDI_MINVOL : ℚ := 20 / 100
    let MIDI_MAXVOL : ℚ := 75 / 100
    let MIDI_INCREMENT : ℚ := (MIDI_MAXVOL - MIDI_MINVOL) / ((SND_MAXVOLUME : ℚ) - 1)
    MIDI_MINVOL + MIDI_INCREMENT * ((volume - 1 : ℕ) : ℚ)
  else 0

/-- I_WIN_SetMusicVolume: update volume_factor, then emit one main-volume
controller message per channel carrying the corrected value derived from
that channel's recorded volume and the new factor.  Returns the new state
and the 16 emitted midiOutShortMsg words. -/
def I_WIN_SetMusicVolume (s : playerState) (volume : ℕ) : playerState × List ℕ :=
  let f := setFactor volume
  let msgs := (List.range MIDI_CHANNELS_PER_TRACK).map (fun i =>
    let value := volume_correction.getD (volIndex (s.channel_volume.getD i 0) f) 0
    MIDI_EVENT_CONTROLLER ||| i ||| (MIDI_CONTROLLER_MAIN_VOLUME <<< 8) ||| (value <<< 16))
  ({ s with volume_factor := f }, msgs)

/- ### Registration -/

/-- I_WIN_RegisterSong.  The external collaborators are oracles: the parse
result (none models a MIDI_LoadFile failure) and the outcomes of the two
midiStreamProperty device calls.  On parse failure it returns false at
once; after a successful parse the channel volumes are initialized to 100,
then each failing device call aborts with false; on success MIDItoStream
populates the song (the allocation is zero-filled, and the merge appends
starting at the stale num_events; writes past the allocation are
unreachable in the verified configurations) and one synchronous
FillBuffer/StreamOut primes the stream. -/
def I_WIN_RegisterSong (s : playerState) (file : Option (List (List midi_event_t)))
    (timedivOk tempoOk : Bool) : Bool × playerState :=
  match file with
  | none => (false, s)
  | some tracks =>
    let s1 : playerState :=
      { s with channel_volume := List.replicate MIDI_CHANNELS_PER_TRACK 100 }
    if !timedivOk then (false, s1)
    else if !tempoOk then (false, s1)
    else
      let merged := MIDItoStream tracks
      let s2 : playerState :=
        { s1 with song := { s1.song with
            native_events := List.replicate s1.song.num_events ⟨0, 0, 0⟩ ++ merged,
            num_events := s1.song.num_events + merged.length } }
      let r := FillBuffer s2
      (true, r.2)

/-- I_WIN_UnRegisterSong: free the event array and reset count and
cursor. -/
def I_WIN_UnRegisterSong (s : playerState) : playerState :=
  { s with song := { s.song with native_events := [], num_events := 0, position := 0 } }

/- ### Playback thread (PlayerProc) -/

/-- What one iteration of the PlayerProc wait loop does. -/
inductive player_action where
  | fillCycle
  | exitThread
deriving Repr, DecidableEq

/-- WaitForMultipleObjects (bWaitAll = FALSE) over the PlayerProc events
array { hBufferReturnEvent, hExitEvent }: per the documented Windows
semantics it returns the lowest array index whose object is signaled,
consuming that auto-reset event; none models an indefinite block while
neither is signaled. -/
def wfmoLowestSignaled (buf exitS : Bool) : Option (Fin 2) :=
  if buf then some 0 else if exitS then some 1 else none

/-- A run of the PlayerProc loop from a given pair of pending signals,
assuming no further signal arrives during the run: index 0 performs a
FillBuffer/StreamOut cycle and loops, index 1 returns from the thread. -/
def PlayerProcRun : ℕ → Bool → Bool → List player_action
  | 0, _, _ => []
  | fuel + 1, buf, exitS =>
    match wfmoLowestSignaled buf exitS with
    | some 0 => player_action.fillCycle :: PlayerProcRun fuel false exitS
    | some 1 => [player_action.exitThread]
    | none => []

/- ### Helper lemmas: volume table and index bounds -/

theorem volume_correction_length : volume_correction.length = 128 := rfl

set_option maxRecDepth 4096 in
theorem volume_correction_pairwise_le : List.Pairwise (· ≤ ·) volume_correction := by
  decide

theorem volume_correction_getD_mono (i j : ℕ) (hij : i ≤ j) (hj : j < 128) :
    volume_correction.getD i 0 ≤ volume_correction.getD j 0 := by
  rcases Nat.lt_or_ge i j with hlt | hge
  · have hi : i < volume_correction.length := by rw [volume_correction_length]; omega
    have hj2 : j < volume_correction.length := by rw [volume_correction_length]; omega
    rw [List.getD_eq_getElem volume_correction 0 hi,
        List.getD_eq_getElem volume_correction 0 hj2]
    exact List.pairwise_iff_get.mp volume_correction_pairwise_le ⟨i, hi⟩ ⟨j, hj2⟩ hlt
  · have heq : i = j := by omega
    subst heq
    exact le_refl _

theorem volIndex_le (v : ℕ) (f : ℚ) (hv : v ≤ 127) (hf0 : 0 ≤ f) (hf1 : f ≤ 1) :
    volIndex v f ≤ 127 := by
  unfold volIndex
  have h1 : (v : ℚ) * f ≤ 127 := by
    calc (v : ℚ) * f ≤ 127 * 1 := by
          apply mul_le_mul _ hf1 hf0 (by norm_num)
          exact_mod_cast hv
    _ = 127 := by norm_num
  have h2 : ⌊(v : ℚ) * f⌋ ≤ 127 := by
    have h3 := Int.floor_le_floor h1
    simpa using h3
  omega

theorem volIndex_mono (v1 v2 : ℕ) (f : ℚ) (h : v1 ≤ v2) (hf0 : 0 ≤ f) :
    volIndex v1 f ≤ volIndex v2 f := by
  unfold volIndex
  have h1 : (v1 : ℚ) * f ≤ (v2 : ℚ) * f := by
    apply mul_le_mul_of_nonneg_right _ hf0
    exact_mod_cast h
  have h2 := Int.floor_le_floor h1
  omega

/- ### C8 -/

/-- C8: the 128-entry volume correction table is monotonically
non-decreasing (table[i] ≤ table[j] for all i ≤ j < 128), and consequently
at any fixed scale factor in [0, 1] the corrected device volume is
non-decreasing as the linear input volume increases over the 128 legal
inputs. -/
theorem volume_correction_monotone :
    (∀ i j : ℕ, i ≤ j → j < 128 →
      volume_correction.getD i 0 ≤ volume_correction.getD j 0) ∧
    (∀ f : ℚ, 0 ≤ f → f ≤ 1 → ∀ v1 v2 : ℕ, v1 ≤ v2 → v2 ≤ 127 →
      volume_correction.getD (volIndex v1 f) 0 ≤
        volume_correction.getD (volIndex v2 f) 0) := by
  constructor
  · exact volume_correction_getD_mono
  · intro f hf0 hf1 v1 v2 h12 h2
    exact volume_correction_getD_mono _ _ (volIndex_mono v1 v2 f h12 hf0)
      (Nat.lt_succ_of_le (volIndex_le v2 f h2 hf0 hf1))

/-- Witness for C8 at concrete inputs i = 3 ≤ j = 7 and factor 1/2,
volumes 10 ≤ 100. -/
theorem volume_correction_monotone_witness :
    volume_correction.getD 3 0 ≤ volume_correction.getD 7 0 ∧
    volume_correction.getD (volIndex 10 (1 / 2)) 0 ≤
      volume_correction.getD (volIndex 100 (1 / 2)) 0 :=
  ⟨volume_correction_monotone.1 3 7 (by norm_num) (by norm_num),
   volume_correction_monotone.2 (1 / 2) (by norm_num) (by norm_num) 10 100
     (by norm_num) (by norm_num)⟩

/- ### C7 -/

theorem volIndex_zero (v : ℕ) : volIndex v 0 = 0 := by simp [volIndex]

set_option maxRecDepth 8192 in
/-- C7: I_WIN_SetMusicVolume 0 sets the global scale factor to exactly 0
(the mute branch, bypassing interpolation), and each of the 16 emitted
per-channel controller messages carries device volume value exactly 0,
whatever volume was previously recorded for each channel. -/
theorem setMusicVolume_zero_mutes (s : playerState) :
    (I_WIN_SetMusicVolume s 0).1.volume_factor = 0 ∧
    (I_WIN_SetMusicVolume s 0).2.map MIDIEVENT_VOLUME =
      List.replicate MIDI_CHANNELS_PER_TRACK 0 := by
  constructor
  · simp [I_WIN_SetMusicVolume, setFactor]
  · simp only [I_WIN_SetMusicVolume, setFactor]
    norm_num [volIndex_zero]
    decide

/- ### C6 -/

/-- C6: with looping disabled and the play cursor at or past the event
count, FillBuffer fills nothing and leaves the whole state (in particular
the cursor) unchanged, and StreamOut submits nothing to the device for the
empty window. -/
theorem fill_end_of_song (s : playerState) (h1 : s.song.looping = false)
    (h2 : s.song.num_events ≤ s.song.position) :
    FillBuffer s = ([], s) ∧ StreamOut (FillBuffer s).1 = none := by
  have hf : FillBuffer s = ([], s) := by
    show FillBufferAux STREAM_MAX_EVENTS s = ([], s)
    show FillBufferAux 4 s = ([], s)
    rw [FillBufferAux]
    simp [h1, h2]
  refine ⟨hf, ?_⟩
  rw [hf]
  simp [StreamOut]

/-- Witness for C6: a one-event non-looping song whose cursor has reached
the end. -/
theorem fill_end_of_song_witness :
    FillBuffer ⟨⟨[⟨0, 0, 0x400090⟩], 1, 1, false⟩, List.replicate 16 100, 1⟩ =
      ([], ⟨⟨[⟨0, 0, 0x400090⟩], 1, 1, false⟩, List.replicate 16 100, 1⟩) ∧
    StreamOut (FillBuffer
      ⟨⟨[⟨0, 0, 0x400090⟩], 1, 1, false⟩, List.replicate 16 100, 1⟩).1 = none :=
  fill_end_of_song ⟨⟨[⟨0, 0, 0x400090⟩], 1, 1, false⟩, List.replicate 16 100, 1⟩
    rfl (by norm_num)

/- ### C4 -/

/-- C4 counterexample: with the exit signal raised while a buffer-returned
signal is pending at the same moment, the wait over
{ hBufferReturnEvent, hExitEvent } observes the lower-indexed buffer event
first, so the thread performs one more fill/submit cycle before
terminating - contradicting the claim that no further cycle happens. -/
theorem playerProc_pending_buffer_extra_cycle :
    PlayerProcRun 2 true true =
      [player_action.fillCycle, player_action.exitThread] ∧
    player_action.fillCycle ∈ PlayerProcRun 2 true true := by
  constructor
  · rfl
  · rw [show PlayerProcRun 2 true true =
        [player_action.fillCycle, player_action.exitThread] from rfl]
    exact List.mem_cons_self _ _

/-- C4 amended: once the exit-requested signal has been raised, the thread
terminates without performing another fill/submit cycle provided no
buffer-returned signal is pending at that moment; if one is pending, the
thread performs exactly one more fill/submit cycle and then terminates. -/
theorem playerProc_exit_handling (fuel : ℕ) (h1 : 1 ≤ fuel) :
    PlayerProcRun fuel false true = [player_action.exitThread] ∧
    (2 ≤ fuel → PlayerProcRun fuel true true =
      [player_action.fillCycle, player_action.exitThread]) := by
  constructor
  · match fuel, h1 with
    | n + 1, _ => rfl
  · intro h2
    match fuel, h2 with
    | n + 2, _ => rfl

/-- Witness for C4 amended at fuel 2. -/
theorem playerProc_exit_handling_witness :
    PlayerProcRun 2 false true = [player_action.exitThread] ∧
    PlayerProcRun 2 true true =
      [player_action.fillCycle, player_action.exitThread] :=
  ⟨(playerProc_exit_handling 2 (by norm_num)).1,
   (playerProc_exit_handling 2 (by norm_num)).2 (by norm_num)⟩

/- ### C3 -/

/-- A concrete prior state for the registration claims: an already
registered one-event song with the cursor mid-song and channel volumes
that differ from the default. -/
def regPriorState : playerState :=
  ⟨⟨[⟨0, 0, 0x400090⟩], 1, 1, false⟩, List.replicate 16 50, 1⟩

set_option maxRecDepth 2048 in
/-- C3 counterexample: a registration whose time-division device call
fails returns failure, yet the per-channel volume state has been reset to
the default 100 (it was 50 before the call), so not all prior state is
unchanged. -/
theorem registerSong_device_failure_mutates_volumes :
    (I_WIN_RegisterSong regPriorState (some [[]]) false false).1 = false ∧
    (I_WIN_RegisterSong regPriorState (some [[]]) false false).2.channel_volume ≠
      regPriorState.channel_volume := by
  constructor
  · rfl
  · decide

/-- C3 amended: whenever I_WIN_RegisterSong returns failure the song state
(event array, event count, play cursor, looping flag) is unchanged; on a
parse failure the whole state, channel volumes included, is unchanged; on
a device-call failure the channel volumes have been reset to the default
100 for every channel. -/
theorem registerSong_failure_preserves_song (s : playerState)
    (file : Option (List (List midi_event_t))) (timedivOk tempoOk : Bool)
    (h : (I_WIN_RegisterSong s file timedivOk tempoOk).1 = false) :
    (I_WIN_RegisterSong s file timedivOk tempoOk).2.song = s.song ∧
    (file = none → (I_WIN_RegisterSong s file timedivOk tempoOk).2 = s) ∧
    (file ≠ none → (I_WIN_RegisterSong s file timedivOk tempoOk).2.channel_volume =
      List.replicate MIDI_CHANNELS_PER_TRACK 100) := by
  match file with
  | none => exact ⟨rfl, fun _ => rfl, fun hc => absurd rfl hc⟩
  | some tracks =>
    match timedivOk, tempoOk with
    | false, _ =>
      exact ⟨rfl, fun hc => absurd hc (by simp), fun _ => rfl⟩
    | true, false =>
      exact ⟨rfl, fun hc => absurd hc (by simp), fun _ => rfl⟩
    | true, true =>
      exact absurd h (by simp [I_WIN_RegisterSong])

/-- Witness for C3 amended: the failing time-division registration on the
concrete prior state. -/
theorem registerSong_failure_preserves_song_witness :
    (I_WIN_RegisterSong regPriorState (some [[]]) false false).2.song =
      regPriorState.song ∧
    (some [[]] = (none : Option (List (List midi_event_t))) →
      (I_WIN_RegisterSong regPriorState (some [[]]) false false).2 = regPriorState) ∧
    (some [[]] ≠ (none : Option (List (List midi_event_t))) →
      (I_WIN_RegisterSong regPriorState (some [[]]) false false).2.channel_volume =
        List.replicate MIDI_CHANNELS_PER_TRACK 100) :=
  registerSong_failure_preserves_song regPriorState (some [[]]) false false rfl

/- ### Helper lemmas: list getD and set -/

theorem getD_set_self {α : Type} (l : List α) (i : ℕ) (x d : α) (h : i < l.length) :
    (l.set i x).getD i d = x := by
  have h2 : i < (l.set i x).length := by rw [List.length_set]; exact h
  rw [List.getD_eq_getElem _ _ h2, List.getElem_set]
  simp

theorem getD_set_ne {α : Type} (l : List α) (i j : ℕ) (x d : α) (hij : i ≠ j) :
    (l.set i x).getD j d = l.getD j d := by
  by_cases hj : j < l.length
  · have h2 : j < (l.set i x).length := by rw [List.length_set]; exact hj
    rw [List.getD_eq_getElem _ _ h2, List.getElem_set, if_neg hij,
        List.getD_eq_getElem _ _ hj]
  · have hj2 : ¬ j < (l.set i x).length := by rw [List.length_set]; exact hj
    rw [List.getD_eq_getElem?_getD, List.getD_eq_getElem?_getD,
        List.getElem?_eq_none (by omega), List.getElem?_eq_none (by omega)]

theorem sum_map_set {α : Type} (f : α → ℕ) (d : α) :
    ∀ (l : List α) (i : ℕ) (x : α), i < l.length →
      ((l.set i x).map f).sum + f (l.getD i d) = (l.map f).sum + f x
  | [], i, x, h => absurd h (by simp)
  | a :: l, 0, x, _ => by simp [List.getD_cons_zero]; omega
  | a :: l, i + 1, x, h => by
    have ih := sum_map_set f d l i x (by simpa using h)
    simp only [List.set_cons_succ, List.map_cons, List.sum_cons, List.getD_cons_succ]
    omega

/- ### Characterization of the candidate scan -/

theorem candidates_mem (tracks : List win_midi_track_t) (k : ℕ) (p1 p2 : ℕ) :
    (p1, p2) ∈ candidates tracks k ↔
      ∃ j, j < tracks.length ∧ p1 = k + j ∧
        ∃ l, (tracks.getD j default_track).iter = some l ∧
          p2 = (tracks.getD j default_track).absolute_time + MIDI_GetDeltaTime l := by
  induction tracks generalizing k with
  | nil => simp [candidates]
  | cons t rest ih =>
    cases hiter : t.iter with
    | none =>
      simp only [candidates, hiter]
      rw [ih (k + 1)]
      constructor
      · rintro ⟨j, hj, hp1, l, hl, hp2⟩
        exact ⟨j + 1, by simpa using Nat.succ_lt_succ hj, by omega, l,
          by simpa [List.getD_cons_succ] using hl,
          by simpa [List.getD_cons_succ] using hp2⟩
      · rintro ⟨j, hj, hp1, l, hl, hp2⟩
        cases j with
        | zero =>
          rw [List.getD_cons_zero] at hl
          rw [hiter] at hl
          exact absurd hl (by simp)
        | succ j =>
          exact ⟨j, by simpa using hj, by omega, l,
            by simpa [List.getD_cons_succ] using hl,
            by simpa [List.getD_cons_succ] using hp2⟩
    | some l0 =>
      simp only [candidates, hiter, List.mem_cons]
      rw [ih (k + 1)]
      constructor
      · rintro (heq | ⟨j, hj, hp1, l, hl, hp2⟩)
        · have h1 : p1 = k := by simpa using congrArg Prod.fst heq
          have h2 : p2 = t.absolute_time + MIDI_GetDeltaTime l0 := by
            simpa using congrArg Prod.snd heq
          exact ⟨0, by simp, by omega, l0, by simp [List.getD_cons_zero, hiter],
            by simp [List.getD_cons_zero, h2]⟩
        · exact ⟨j + 1, by simpa using Nat.succ_lt_succ hj, by omega, l,
            by simpa [List.getD_cons_succ] using hl,
            by simpa [List.getD_cons_succ] using hp2⟩
      · rintro ⟨j, hj, hp1, l, hl, hp2⟩
        cases j with
        | zero =>
          rw [List.getD_cons_zero] at hl hp2
          rw [hiter] at hl
          have hll : l = l0 := by injection hl.symm
          left
          rw [Prod.ext_iff]
          exact ⟨by omega, by simp [hp2, hll]⟩
        | succ j =>
          right
          exact ⟨j, by simpa using hj, by omega, l,
            by simpa [List.getD_cons_succ] using hl,
            by simpa [List.getD_cons_succ] using hp2⟩

theorem candidates_fst_pairwise (tracks : List win_midi_track_t) (k : ℕ) :
    List.Pairwise (fun p q => p.1 < q.1) (candidates tracks k) := by
  induction tracks generalizing k with
  | nil => simp [candidates]
  | cons t rest ih =>
    cases hiter : t.iter with
    | none => simpa [candidates, hiter] using ih (k + 1)
    | some l0 =>
      simp only [candidates, hiter]
      refine List.Pairwise.cons ?_ (ih (k + 1))
      intro p hp
      obtain ⟨p1, p2⟩ := p
      rw [candidates_mem] at hp
      obtain ⟨j, _, hp1, _⟩ := hp
      simp
      omega

/- ### Specification of the minimum scan -/

theorem pickMin_isSome (cs : List (ℕ × ℕ)) (b : ℕ × ℕ) :
    ∃ r, pickMin (some b) cs = some r := by
  induction cs generalizing b with
  | nil => exact ⟨b, rfl⟩
  | cons c rest ih =>
    obtain ⟨i, t⟩ := c
    obtain ⟨bi, bt⟩ := b
    show (∃ r, (if t < bt then pickMin (some (i, t)) rest
      else pickMin (some (bi, bt)) rest) = some r)
    by_cases hlt : t < bt
    · rw [if_pos hlt]; exact ih (i, t)
    · rw [if_neg hlt]; exact ih (bi, bt)

theorem scanMin_none_candidates (tracks : List win_midi_track_t)
    (h : scanMin tracks = none) : candidates tracks 0 = [] := by
  unfold scanMin at h
  cases hcs : candidates tracks 0 with
  | nil => rfl
  | cons c rest =>
    rw [hcs] at h
    obtain ⟨i, t⟩ := c
    obtain ⟨r, hr⟩ := pickMin_isSome rest (i, t)
    rw [show pickMin none ((i, t) :: rest) = pickMin (some (i, t)) rest from rfl] at h
    rw [hr] at h
    exact absurd h (by simp)

theorem pickMin_go (cs : List (ℕ × ℕ)) (b r : ℕ × ℕ)
    (hb : ∀ p ∈ cs, b.1 < p.1)
    (hp : List.Pairwise (fun p q => p.1 < q.1) cs)
    (h : pickMin (some b) cs = some r) :
    (r = b ∨ (r ∈ cs ∧ r.2 < b.2)) ∧
    (∀ p ∈ cs, r.2 ≤ p.2) ∧
    (∀ p ∈ cs, p.2 = r.2 → r.1 ≤ p.1) := by
  induction cs generalizing b with
  | nil =>
    have hrb : r = b := by
      rw [show pickMin (some b) [] = some b from rfl] at h
      injection h with h2
      exact h2.symm
    exact ⟨Or.inl hrb, by simp, by simp⟩
  | cons c rest ih =>
    obtain ⟨i, t⟩ := c
    obtain ⟨bi, bt⟩ := b
    rw [List.pairwise_cons] at hp
    obtain ⟨hpc, hpr⟩ := hp
    have hbc : bi < i := hb (i, t) (List.mem_cons_self _ _)
    rw [show pickMin (some (bi, bt)) ((i, t) :: rest) =
      (if t < bt then pickMin (some (i, t)) rest
       else pickMin (some (bi, bt)) rest) from rfl] at h
    by_cases hlt : t < bt
    · rw [if_pos hlt] at h
      obtain ⟨ih1, ih2, ih3⟩ := ih (i, t) (fun p hp => hpc p hp) hpr h
      refine ⟨?_, ?_, ?_⟩
      · rcases ih1 with heq | ⟨hmem, hlt2⟩
        · exact Or.inr ⟨by rw [heq]; exact List.mem_cons_self _ _, by rw [heq]; exact hlt⟩
        · exact Or.inr ⟨List.mem_cons_of_mem _ hmem, lt_trans hlt2 hlt⟩
      · intro p hp2
        rcases List.mem_cons.mp hp2 with heq | hmem
        · rcases ih1 with heq2 | ⟨_, hlt2⟩
          · rw [heq2, heq]
          · rw [heq]; exact le_of_lt hlt2
        · exact ih2 p hmem
      · intro p hp2 hpe
        rcases List.mem_cons.mp hp2 with heq | hmem
        · rcases ih1 with heq2 | ⟨_, hlt2⟩
          · rw [heq2, heq]
          · have h6 : t = r.2 := by rw [heq] at hpe; exact hpe
            have h7 : r.2 < t := hlt2
            exact absurd h6 (by omega)
        · exact ih3 p hmem hpe
    · rw [if_neg hlt] at h
      obtain ⟨ih1, ih2, ih3⟩ := ih (bi, bt)
        (fun p hp => hb p (List.mem_cons_of_mem _ hp)) hpr h
      have hble : bt ≤ t := by omega
      refine ⟨?_, ?_, ?_⟩
      · rcases ih1 with heq | ⟨hmem, hlt2⟩
        · exact Or.inl heq
        · exact Or.inr ⟨List.mem_cons_of_mem _ hmem, hlt2⟩
      · intro p hp2
        rcases List.mem_cons.mp hp2 with heq | hmem
        · rcases ih1 with heq2 | ⟨_, hlt2⟩
          · rw [heq2, heq]; exact hble
          · rw [heq]; omega
        · exact ih2 p hmem
      · intro p hp2 hpe
        rcases List.mem_cons.mp hp2 with heq | hmem
        · rcases ih1 with heq2 | ⟨_, hlt2⟩
          · rw [heq2, heq]
            exact le_of_lt hbc
          · rw [heq] at hpe
            omega
        · exact ih3 p hmem hpe

theorem scanMin_spec (tracks : List win_midi_track_t) (idx mt : ℕ)
    (h : scanMin tracks = some (idx, mt)) :
    (idx, mt) ∈ candidates tracks 0 ∧
    (∀ p ∈ candidates tracks 0, mt ≤ p.2) ∧
    (∀ p ∈ candidates tracks 0, p.2 = mt → idx ≤ p.1) := by
  unfold scanMin at h
  cases hcs : candidates tracks 0 with
  | nil => rw [hcs] at h; exact absurd h (by simp [pickMin])
  | cons c rest =>
    rw [hcs] at h
    obtain ⟨ci, ct⟩ := c
    rw [show pickMin none ((ci, ct) :: rest) = pickMin (some (ci, ct)) rest from rfl] at h
    have hpw := candidates_fst_pairwise tracks 0
    rw [hcs, List.pairwise_cons] at hpw
    obtain ⟨hpc, hpr⟩ := hpw
    obtain ⟨g1, g2, g3⟩ := pickMin_go rest (ci, ct) (idx, mt) hpc hpr h
    refine ⟨?_, ?_, ?_⟩
    · rcases g1 with heq | ⟨hmem, _⟩
      · rw [heq]; exact List.mem_cons_self _ _
      · exact List.mem_cons_of_mem _ hmem
    · intro p hp2
      rcases List.mem_cons.mp hp2 with heq | hmem
      · rcases g1 with heq2 | ⟨_, hlt2⟩
        · rw [heq]
          have h2 : mt = ct := congrArg Prod.snd heq2
          omega
        · rw [heq]
          exact le_of_lt hlt2
      · exact g2 p hmem
    · intro p hp2 hpe
      rcases List.mem_cons.mp hp2 with heq | hmem
      · rcases g1 with heq2 | ⟨_, hlt2⟩
        · rw [heq]
          have h2 : idx = ci := congrArg Prod.fst heq2
          omega
        · rw [heq] at hpe
          omega
      · exact g3 p hmem hpe

/- ### Stepping the merge loop -/

theorem merge_step_none (fuel : ℕ) (tracks : List win_midi_track_t) (ct : ℕ)
    (hscan : scanMin tracks = none) :
    MIDItoStreamFuel (fuel + 1) tracks ct = [] := by
  simp only [MIDItoStreamFuel, hscan]

theorem merge_step_close (fuel : ℕ) (tracks : List win_midi_track_t) (ct idx mt : ℕ)
    (hscan : scanMin tracks = some (idx, mt))
    (hiter : (tracks.getD idx default_track).iter = some []) :
    MIDItoStreamFuel (fuel + 1) tracks ct =
      MIDItoStreamFuel fuel (tracks.set idx ⟨none, mt⟩) ct := by
  simp only [MIDItoStreamFuel, hscan, hiter, MIDI_GetNextEvent]

theorem merge_step_consume (fuel : ℕ) (tracks : List win_midi_track_t) (ct idx mt : ℕ)
    (event : midi_event_t) (rest : List midi_event_t)
    (hscan : scanMin tracks = some (idx, mt))
    (hiter : (tracks.getD idx default_track).iter = some (event :: rest)) :
    MIDItoStreamFuel (fuel + 1) tracks ct =
      (if eventToData event ≠ 0 then
        (mt, ⟨mt - ct, 0, eventToData event⟩) ::
          MIDItoStreamFuel fuel (tracks.set idx ⟨some rest, mt⟩) mt
      else
        MIDItoStreamFuel fuel (tracks.set idx ⟨some rest, mt⟩) ct) := by
  simp only [MIDItoStreamFuel, hscan, hiter, MIDI_GetNextEvent]

/- ### The time invariant of the merge -/

/-- The merge-loop invariant: the running emission time current_time is a
lower bound on every open track's candidate absolute time. -/
def goodState (tracks : List win_midi_track_t) (ct : ℕ) : Prop :=
  ∀ p ∈ candidates tracks 0, ct ≤ p.2

/-- The emitted (absolute time, native event) list is consistent with a
starting time ct: times are non-decreasing from ct onward and each
dwDeltaTime is the gap from the previous emission time. -/
def deltaAbs : ℕ → List (ℕ × native_event_t) → Prop
  | _, [] => True
  | ct, (t, e) :: rest => ct ≤ t ∧ e.dwDeltaTime = t - ct ∧ deltaAbs t rest

theorem goodState_set (tracks : List win_midi_track_t) (idx : ℕ)
    (tnew : win_midi_track_t) (ct : ℕ)
    (hothers : ∀ p1 p2, (p1, p2) ∈ candidates tracks 0 → p1 ≠ idx → ct ≤ p2)
    (hnew : ∀ l, tnew.iter = some l →
      ct ≤ tnew.absolute_time + MIDI_GetDeltaTime l) :
    goodState (tracks.set idx tnew) ct := by
  intro p hp
  obtain ⟨p1, p2⟩ := p
  rw [candidates_mem] at hp
  obtain ⟨j, hj, hp1, l, hl, hp2⟩ := hp
  rw [List.length_set] at hj
  by_cases hji : j = idx
  · subst hji
    rw [getD_set_self _ _ _ _ hj] at hl hp2
    exact hp2 ▸ hnew l hl
  · rw [getD_set_ne _ _ _ _ _ (fun hh => hji hh.symm)] at hl hp2
    have hmem : (p1, p2) ∈ candidates tracks 0 := by
      rw [candidates_mem]
      exact ⟨j, hj, hp1, l, hl, hp2⟩
    exact hothers p1 p2 hmem (by omega)

theorem merge_deltaAbs (fuel : ℕ) : ∀ (tracks : List win_midi_track_t) (ct : ℕ),
    goodState tracks ct → deltaAbs ct (MIDItoStreamFuel fuel tracks ct) := by
  induction fuel with
  | zero =>
    intro tracks ct _
    exact trivial
  | succ fuel ih =>
    intro tracks ct hgood
    cases hscan : scanMin tracks with
    | none =>
      rw [merge_step_none fuel tracks ct hscan]
      exact trivial
    | some r =>
      obtain ⟨idx, mt⟩ := r
      obtain ⟨hmem0, hmin, _⟩ := scanMin_spec tracks idx mt hscan
      have hctmt : ct ≤ mt := hgood (idx, mt) hmem0
      have hmem := hmem0
      rw [candidates_mem] at hmem
      obtain ⟨j, hj, hidx_eq, l, hiter, hmt⟩ := hmem
      have hij : j = idx := by omega
      subst hij
      cases l with
      | nil =>
        rw [merge_step_close fuel tracks ct j mt hscan hiter]
        apply ih
        apply goodState_set
        · intro p1 p2 hpm _
          exact hgood (p1, p2) hpm
        · intro l2 hl2
          exact absurd hl2 (by simp)
      | cons event rest =>
        rw [merge_step_consume fuel tracks ct j mt event rest hscan hiter]
        by_cases hdata : eventToData event ≠ 0
        · rw [if_pos hdata]
          refine ⟨hctmt, rfl, ?_⟩
          apply ih
          apply goodState_set
          · intro p1 p2 hpm _
            exact hmin (p1, p2) hpm
          · intro l2 hl2
            have hl3 : l2 = rest := by injection hl2 with h5; exact h5.symm
            subst hl3
            exact Nat.le_add_right mt _
        · rw [if_neg hdata]
          apply ih
          apply goodState_set
          · intro p1 p2 hpm _
            exact hgood (p1, p2) hpm
          · intro l2 hl2
            have hl3 : l2 = rest := by injection hl2 with h5; exact h5.symm
            subst hl3
            exact le_trans hctmt (Nat.le_add_right mt _)

/- ### Consequences of the time invariant -/

theorem deltaAbs_chain_cons : ∀ (out : List (ℕ × native_event_t)) (ct : ℕ),
    deltaAbs ct out → List.Chain (· ≤ ·) ct (out.map Prod.fst)
  | [], _, _ => List.Chain.nil
  | (t, e) :: rest, ct, h => by
    obtain ⟨h1, _, h3⟩ := h
    exact List.Chain.cons h1 (deltaAbs_chain_cons rest t h3)

theorem chain_le_drop_head {a : ℕ} {xs : List ℕ} (h : List.Chain (· ≤ ·) a xs) :
    List.Chain' (· ≤ ·) xs := by
  cases xs with
  | nil => trivial
  | cons b l =>
    rw [List.chain_cons] at h
    exact h.2

theorem deltaAbs_sum : ∀ (out : List (ℕ × native_event_t)) (ct : ℕ),
    deltaAbs ct out → ∀ k, k < out.length →
      ct + ((out.map (fun p => p.2.dwDeltaTime)).take (k + 1)).sum =
        (out.getD k (0, ⟨0, 0, 0⟩)).1
  | [], _, _, k, hk => absurd hk (by simp)
  | (t, e) :: rest, ct, h, k, hk => by
    obtain ⟨h1, h2, h3⟩ := h
    cases k with
    | zero =>
      simp only [List.map_cons, List.take_succ_cons, List.take_zero, List.sum_cons,
        List.sum_nil, List.getD_cons_zero]
      omega
    | succ k =>
      have hk2 : k < rest.length := by simpa using hk
      have ih := deltaAbs_sum rest t h3 k hk2
      simp only [List.map_cons, List.take_succ_cons, List.sum_cons, List.getD_cons_succ]
      omega

theorem goodState_init (file : List (List midi_event_t)) :
    goodState (initTracks file) 0 := by
  intro p _
  exact Nat.zero_le _

/- ### C1 -/

/-- A note-on event used in the concrete merge scenarios. -/
def exNote (delta key : ℕ) : midi_event_t :=
  ⟨delta, MIDI_EVENT_NOTE_ON, 0, [], 0, key, 64⟩

/-- The packed data word of an exNote. -/
def exNoteData (key : ℕ) : ℕ :=
  MIDI_EVENT_NOTE_ON ||| 0 ||| (key <<< 8) ||| (64 <<< 16) ||| (MEVT_SHORTMSG <<< 24)

/-- The 2-track scenario of the claim: track A at absolute times
[0, 100, 100], track B at [50, 100], A registered first. -/
def exampleFile : List (List midi_event_t) :=
  [[exNote 0 1, exNote 100 2, exNote 0 3], [exNote 50 11, exNote 50 12]]

/-- Expected merged order A@0, B@50, A@100, A@100, B@100. -/
def exampleMerged : List (ℕ × native_event_t) :=
  [(0, ⟨0, 0, exNoteData 1⟩),
   (50, ⟨50, 0, exNoteData 11⟩),
   (100, ⟨50, 0, exNoteData 2⟩),
   (100, ⟨0, 0, exNoteData 3⟩),
   (100, ⟨0, 0, exNoteData 12⟩)]

/-- A state with two open tracks tied at candidate absolute time 5. -/
def tieTracks : List win_midi_track_t :=
  [⟨some [exNote 5 1], 0⟩, ⟨some [exNote 5 2], 0⟩]

/-- C1: the merged output's cumulative absolute times are non-decreasing
for every input file; the minimum scan resolves equal minimal candidate
times in favor of the lowest track index; and the concrete 2-track
scenario (A at [0,100,100], B at [50,100]) merges to
A@0, B@50, A@100, A@100, B@100 with A's simultaneous events in their
within-track order. -/
theorem merge_order_spec :
    (∀ file : List (List midi_event_t),
      List.Chain' (· ≤ ·) ((MIDItoStreamTimed file).map Prod.fst)) ∧
    (∀ (tracks : List win_midi_track_t) (idx mt : ℕ) (p : ℕ × ℕ),
      scanMin tracks = some (idx, mt) → p ∈ candidates tracks 0 →
        mt ≤ p.2 ∧ (p.2 = mt → idx ≤ p.1)) ∧
    MIDItoStreamTimed exampleFile = exampleMerged := by
  refine ⟨?_, ?_, ?_⟩
  · intro file
    have h := merge_deltaAbs (trackMeasure (initTracks file)) (initTracks file) 0
      (goodState_init file)
    exact chain_le_drop_head (deltaAbs_chain_cons _ 0 h)
  · intro tracks idx mt p hscan hp
    obtain ⟨_, hmin, htie⟩ := scanMin_spec tracks idx mt hscan
    exact ⟨hmin p hp, fun he => htie p hp he⟩
  · rfl

/-- Witness for C1 at the concrete tie state: both tracks have candidate
time 5, the scan returns track 0, and the tie-break bound holds at the
candidate (1, 5). -/
theorem merge_order_spec_witness :
    (5 : ℕ) ≤ ((1, 5) : ℕ × ℕ).2 ∧
      (((1, 5) : ℕ × ℕ).2 = 5 → (0 : ℕ) ≤ ((1, 5) : ℕ × ℕ).1) :=
  merge_order_spec.2.1 tieTracks 0 5 (1, 5) rfl (by decide)

/- ### C2 -/

/-- C2: for every input file, the sum of the first k+1 emitted delta
times equals the absolute time of the k-th emitted event (the min_time
recorded at its emission), dropped input events contributing no delta
entry and leaving no stray delta mass. -/
theorem merged_delta_integrity (file : List (List midi_event_t)) (k : ℕ)
    (hk : k < (MIDItoStreamTimed file).length) :
    (((MIDItoStream file).map native_event_t.dwDeltaTime).take (k + 1)).sum =
      ((MIDItoStreamTimed file).getD k (0, ⟨0, 0, 0⟩)).1 := by
  have h := merge_deltaAbs (trackMeasure (initTracks file)) (initTracks file) 0
    (goodState_init file)
  have h2 := deltaAbs_sum (MIDItoStreamTimed file) 0 h k hk
  rw [MIDItoStream, List.map_map]
  simpa using h2

/-- A one-track scenario with a dropped (non-tempo meta) event between
two emitted notes: events at absolute times 10, 30 (dropped), 60. -/
def exampleFileDrop : List (List midi_event_t) :=
  [[exNote 10 1, ⟨20, MIDI_EVENT_META, 0x01, [], 0, 0, 0⟩, exNote 30 2]]

/-- Witness for C2: in the dropped-event scenario the first two emitted
deltas are 10 and 50, summing to the second emission's absolute time 60. -/
theorem merged_delta_integrity_witness :
    (((MIDItoStream exampleFileDrop).map native_event_t.dwDeltaTime).take (1 + 1)).sum =
      ((MIDItoStreamTimed exampleFileDrop).getD 1 (0, ⟨0, 0, 0⟩)).1 :=
  merged_delta_integrity exampleFileDrop 1 (by decide)

/- ### C10 -/

/-- The number of not-yet-consumed input events behind a merge cursor. -/
def iterLen (t : win_midi_track_t) : ℕ :=
  match t.iter with
  | none => 0
  | some l => l.length

/-- Total input events remaining across all tracks. -/
def totalRemaining (tracks : List win_midi_track_t) : ℕ :=
  (tracks.map iterLen).sum

theorem merge_length_le (fuel : ℕ) : ∀ (tracks : List win_midi_track_t) (ct : ℕ),
    (MIDItoStreamFuel fuel tracks ct).length ≤ totalRemaining tracks := by
  induction fuel with
  | zero =>
    intro tracks ct
    simp [MIDItoStreamFuel]
  | succ fuel ih =>
    intro tracks ct
    cases hscan : scanMin tracks with
    | none =>
      rw [merge_step_none fuel tracks ct hscan]
      simp
    | some r =>
      obtain ⟨idx, mt⟩ := r
      obtain ⟨hmem0, _, _⟩ := scanMin_spec tracks idx mt hscan
      rw [candidates_mem] at hmem0
      obtain ⟨j, hj, hidx_eq, l, hiter, hmt⟩ := hmem0
      have hij : j = idx := by omega
      subst hij
      cases l with
      | nil =>
        rw [merge_step_close fuel tracks ct j mt hscan hiter]
        have hrec := ih (tracks.set j ⟨none, mt⟩) ct
        have hs := sum_map_set iterLen default_track tracks j ⟨none, mt⟩ hj
        have hf1 : iterLen (tracks.getD j default_track) = 0 := by
          unfold iterLen
          rw [hiter]
          rfl
        have hf2 : iterLen ⟨none, mt⟩ = 0 := rfl
        unfold totalRemaining at hrec ⊢
        omega
      | cons event rest =>
        have hrec1 := ih (tracks.set j ⟨some rest, mt⟩) mt
        have hrec2 := ih (tracks.set j ⟨some rest, mt⟩) ct
        have hs := sum_map_set iterLen default_track tracks j ⟨some rest, mt⟩ hj
        have hf1 : iterLen (tracks.getD j default_track) = rest.length + 1 := by
          unfold iterLen
          rw [hiter]
          simp
        have hf2 : iterLen ⟨some rest, mt⟩ = rest.length := rfl
        rw [merge_step_consume fuel tracks ct j mt event rest hscan hiter]
        by_cases hdata : eventToData event ≠ 0
        · rw [if_pos hdata]
          rw [List.length_cons]
          unfold totalRemaining at hrec1 ⊢
          omega
        · rw [if_neg hdata]
          unfold totalRemaining at hrec2 ⊢
          omega

theorem totalRemaining_init (file : List (List midi_event_t)) :
    totalRemaining (initTracks file) = MIDI_NumEvents file := by
  unfold totalRemaining initTracks MIDI_NumEvents
  rw [List.map_map]
  congr 1

/-- C10: starting from an event count of 0, the merge emits at most one
output event per consumed input event, so the output length is bounded by
the file's total event count (the allocation size) and every write index
into the output array stays strictly below it. -/
theorem merge_no_overflow (file : List (List midi_event_t)) :
    (MIDItoStream file).length ≤ MIDI_NumEvents file ∧
    (∀ k, k < (MIDItoStream file).length → k < MIDI_NumEvents file) := by
  have h : (MIDItoStream file).length ≤ MIDI_NumEvents file := by
    unfold MIDItoStream MIDItoStreamTimed
    rw [List.length_map]
    calc (MIDItoStreamFuel (trackMeasure (initTracks file)) (initTracks file) 0).length
        ≤ totalRemaining (initTracks file) := merge_length_le _ _ _
      _ = MIDI_NumEvents file := totalRemaining_init file
  exact ⟨h, fun k hk => lt_of_lt_of_le hk h⟩

/-- Witness for C10: in the 2-track scenario, all 5 inputs are emitted
(5 ≤ 5) and write index 0 is below the file's reported total 5. -/
theorem merge_no_overflow_witness :
    (MIDItoStream exampleFile).length ≤ MIDI_NumEvents exampleFile ∧
    (0 : ℕ) < MIDI_NumEvents exampleFile :=
  ⟨(merge_no_overflow exampleFile).1,
   (merge_no_overflow exampleFile).2 0 (by decide)⟩

/- ### C5: the fill loop under looping -/

theorem FillStep_spec (s : playerState) :
    (FillStep s).1 = adjustEvent s.volume_factor
      (s.song.native_events.getD s.song.position ⟨0, 0, 0⟩) ∧
    (FillStep s).2.song.native_events = s.song.native_events ∧
    (FillStep s).2.song.num_events = s.song.num_events ∧
    (FillStep s).2.song.position = s.song.position + 1 ∧
    (FillStep s).2.song.looping = s.song.looping ∧
    (FillStep s).2.volume_factor = s.volume_factor := by
  by_cases h : MIDIEVENT_TYPE (s.song.native_events.getD s.song.position ⟨0, 0, 0⟩).dwEvent
      = MIDI_EVENT_CONTROLLER ∧
      MIDIEVENT_DATA1 (s.song.native_events.getD s.song.position ⟨0, 0, 0⟩).dwEvent
      = MIDI_CONTROLLER_MAIN_VOLUME
  · simp only [FillStep, adjustEvent, if_pos h]
    exact ⟨trivial, trivial, trivial, trivial, trivial, trivial⟩
  · simp only [FillStep, adjustEvent, if_neg h]
    exact ⟨trivial, trivial, trivial, trivial, trivial, trivial⟩

theorem fillAux_step_wrap (n : ℕ) (s : playerState)
    (hpos : s.song.position ≥ s.song.num_events) (hloop : s.song.looping = true) :
    FillBufferAux (n + 1) s =
      ((FillStep { s with song := { s.song with position := 0 } }).1 ::
        (FillBufferAux n (FillStep { s with song := { s.song with position := 0 } }).2).1,
       (FillBufferAux n (FillStep { s with song := { s.song with position := 0 } }).2).2) := by
  simp only [FillBufferAux, if_pos hpos, hloop, if_true]

theorem fillAux_step_copy (n : ℕ) (s : playerState)
    (hpos : ¬ s.song.position ≥ s.song.num_events) :
    FillBufferAux (n + 1) s =
      ((FillStep s).1 :: (FillBufferAux n (FillStep s).2).1,
       (FillBufferAux n (FillStep s).2).2) := by
  simp only [FillBufferAux, if_neg hpos]

theorem fillAux_loop : ∀ (n : ℕ) (s : playerState),
    s.song.looping = true →
    s.song.num_events = s.song.native_events.length →
    1 ≤ s.song.num_events →
    s.song.position ≤ s.song.num_events →
    (FillBufferAux n s).1 = (List.range n).map (fun j =>
      adjustEvent s.volume_factor
        (s.song.native_events.getD
          ((s.song.position + j) % s.song.num_events) ⟨0, 0, 0⟩)) ∧
    (FillBufferAux n s).2.song.native_events = s.song.native_events ∧
    (FillBufferAux n s).2.song.num_events = s.song.num_events ∧
    (FillBufferAux n s).2.song.looping = true ∧
    (FillBufferAux n s).2.volume_factor = s.volume_factor ∧
    (FillBufferAux n s).2.song.position ≤ s.song.num_events ∧
    (FillBufferAux n s).2.song.position % s.song.num_events
      = (s.song.position + n) % s.song.num_events := by
  intro n
  induction n with
  | zero =>
    intro s h1 h2 h3 h4
    exact ⟨rfl, rfl, rfl, h1, rfl, h4, rfl⟩
  | succ n ih =>
    intro s h1 h2 h3 h4
    by_cases hpos : s.song.position ≥ s.song.num_events
    · have hpK : s.song.position = s.song.num_events := le_antisymm h4 hpos
      rw [fillAux_step_wrap n s hpos h1]
      obtain ⟨f1, f2, f3, f4, f5, f6⟩ :=
        FillStep_spec { s with song := { s.song with position := 0 } }
      have e1 : ({ s with song := { s.song with position := 0 } }
        : playerState).song.native_events = s.song.native_events := rfl
      have e2 : ({ s with song := { s.song with position := 0 } }
        : playerState).song.num_events = s.song.num_events := rfl
      have e3 : ({ s with song := { s.song with position := 0 } }
        : playerState).song.looping = s.song.looping := rfl
      have e4 : ({ s with song := { s.song with position := 0 } }
        : playerState).volume_factor = s.volume_factor := rfl
      have e5 : ({ s with song := { s.song with position := 0 } }
        : playerState).song.position = 0 := rfl
      rw [e1, e4, e5] at f1
      rw [e1] at f2
      rw [e2] at f3
      rw [e5, Nat.zero_add] at f4
      rw [e3, h1] at f5
      rw [e4] at f6
      obtain ⟨g1, g2, g3, g4, g5, g6, g7⟩ :=
        ih (FillStep { s with song := { s.song with position := 0 } }).2
          f5 (by rw [f3, f2]; exact h2) (by rw [f3]; exact h3)
          (by rw [f4, f3]; exact h3)
      rw [f2, f3, f4, f6] at g1
      rw [f2] at g2
      rw [f3] at g3
      rw [f6] at g5
      rw [f3] at g6
      rw [f3, f4] at g7
      refine ⟨?_, g2, g3, g4, g5, g6, ?_⟩
      · show (FillStep { s with song := { s.song with position := 0 } }).1 ::
          (FillBufferAux n (FillStep { s with song := { s.song with position := 0 } }).2).1 = _
        rw [g1, f1, List.range_succ_eq_map, List.map_cons, List.map_map]
        congr 1
        · conv_rhs => rw [Nat.add_zero, hpK, Nat.mod_self]
        · apply List.map_congr_left
          intro j hj
          simp only [Function.comp_apply]
          conv_rhs => rw [hpK, Nat.add_mod_left]
          rw [Nat.add_comm 1 j]
      · show (FillBufferAux n
          (FillStep { s with song := { s.song with position := 0 } }).2).2.song.position
            % s.song.num_events = _
        rw [g7]
        conv_rhs => rw [hpK, Nat.add_mod_left]
        rw [Nat.add_comm 1 n]
    · have hplt : s.song.position < s.song.num_events := by omega
      rw [fillAux_step_copy n s hpos]
      obtain ⟨f1, f2, f3, f4, f5, f6⟩ := FillStep_spec s
      rw [h1] at f5
      obtain ⟨g1, g2, g3, g4, g5, g6, g7⟩ := ih (FillStep s).2
        f5 (by rw [f3, f2]; exact h2) (by rw [f3]; exact h3)
        (by rw [f4, f3]; omega)
      rw [f2, f3, f4, f6] at g1
      rw [f2] at g2
      rw [f3] at g3
      rw [f6] at g5
      rw [f3] at g6
      rw [f3, f4] at g7
      refine ⟨?_, g2, g3, g4, g5, g6, ?_⟩
      · show (FillStep s).1 :: (FillBufferAux n (FillStep s).2).1 = _
        rw [g1, f1, List.range_succ_eq_map, List.map_cons, List.map_map]
        congr 1
        · conv_rhs => rw [Nat.add_zero, Nat.mod_eq_of_lt hplt]
        · apply List.map_congr_left
          intro j hj
          simp only [Function.comp_apply]
          have hj2 : s.song.position + 1 + j = s.song.position + Nat.succ j := by omega
          rw [hj2]
      · show (FillBufferAux n (FillStep s).2).2.song.position % s.song.num_events = _
        rw [g7]
        have hn2 : s.song.position + 1 + n = s.song.position + (n + 1) := by omega
        rw [hn2]

theorem fillN_succ (n : ℕ) (s : playerState) :
    fillN (n + 1) s = ((FillBufferAux STREAM_MAX_EVENTS s).1 ::
      (fillN n (FillBufferAux STREAM_MAX_EVENTS s).2).1,
      (fillN n (FillBufferAux STREAM_MAX_EVENTS s).2).2) := rfl

theorem fillN_spec : ∀ (n : ℕ) (s : playerState),
    s.song.looping = true →
    s.song.num_events = s.song.native_events.length →
    1 ≤ s.song.num_events →
    s.song.position ≤ s.song.num_events →
    (∀ w ∈ (fillN n s).1, w.length = STREAM_MAX_EVENTS) ∧
    (fillN n s).1.flatten = (List.range (STREAM_MAX_EVENTS * n)).map (fun i =>
      adjustEvent s.volume_factor
        (s.song.native_events.getD
          ((s.song.position + i) % s.song.num_events) ⟨0, 0, 0⟩)) ∧
    (fillN n s).2.song.native_events = s.song.native_events ∧
    (fillN n s).2.song.num_events = s.song.num_events ∧
    (fillN n s).2.song.looping = true ∧
    (fillN n s).2.volume_factor = s.volume_factor ∧
    (fillN n s).2.song.position ≤ s.song.num_events ∧
    (fillN n s).2.song.position % s.song.num_events
      = (s.song.position + STREAM_MAX_EVENTS * n) % s.song.num_events := by
  intro n
  induction n with
  | zero =>
    intro s h1 h2 h3 h4
    exact ⟨by simp [fillN], rfl, rfl, rfl, h1, rfl, h4, rfl⟩
  | succ n ih =>
    intro s h1 h2 h3 h4
    rw [fillN_succ n s]
    obtain ⟨a1, a2, a3, a4, a5, a6, a7⟩ := fillAux_loop STREAM_MAX_EVENTS s h1 h2 h3 h4
    obtain ⟨b1, b2, b3, b4, b5, b6, b7, b8⟩ :=
      ih (FillBufferAux STREAM_MAX_EVENTS s).2
        a4 (by rw [a3, a2]; exact h2) (by rw [a3]; exact h3) (by rw [a3]; exact a6)
    rw [a2, a3, a5] at b2
    rw [a2] at b3
    rw [a3] at b4
    rw [a5] at b6
    rw [a3] at b7
    rw [a3] at b8
    have hsplit : STREAM_MAX_EVENTS * (n + 1) = STREAM_MAX_EVENTS + STREAM_MAX_EVENTS * n := by
      ring
    refine ⟨?_, ?_, b3, b4, b5, b6, b7, ?_⟩
    · intro w hw
      rcases List.mem_cons.mp hw with heq | hmem
      · rw [heq, a1, List.length_map, List.length_range]
      · exact b1 w hmem
    · show (FillBufferAux STREAM_MAX_EVENTS s).1 ++
        (fillN n (FillBufferAux STREAM_MAX_EVENTS s).2).1.flatten = _
      rw [hsplit, List.range_add, List.map_append, List.map_map, a1, b2]
      congr 1
      apply List.map_congr_left
      intro i hi
      simp only [Function.comp_apply]
      have hidx : ((FillBufferAux STREAM_MAX_EVENTS s).2.song.position + i)
          % s.song.num_events
          = (s.song.position + (STREAM_MAX_EVENTS + i)) % s.song.num_events := by
        rw [← Nat.mod_add_mod, a7, Nat.mod_add_mod, Nat.add_assoc]
      rw [hidx]
    · show (fillN n (FillBufferAux STREAM_MAX_EVENTS s).2).2.song.position
        % s.song.num_events = _
      rw [b8, ← Nat.mod_add_mod, a7, Nat.mod_add_mod, Nat.add_assoc, ← hsplit]

theorem adjustEvent_id (f : ℚ) (e : native_event_t)
    (h : ¬(MIDIEVENT_TYPE e.dwEvent = MIDI_EVENT_CONTROLLER ∧
      MIDIEVENT_DATA1 e.dwEvent = MIDI_CONTROLLER_MAIN_VOLUME)) :
    adjustEvent f e = e := by
  unfold adjustEvent
  rw [if_neg h]

/-- C5: for a looping song with at least one event and the cursor at 0,
every one of n successive FillBuffer calls fills the full window capacity
of 4, and the concatenation of the filled windows streams the event array
cyclically (index i of the concatenation holds entry i mod K, i.e. the
cursor wraps to 0 mid-fill with no event skipped or duplicated), each
copy carrying the per-event volume substitution at the current scale
factor; when the song has no main-volume controller event the
concatenation is verbatim the event array repeated. -/
theorem fill_loop_cyclic (s : playerState) (n : ℕ)
    (h1 : s.song.looping = true)
    (h2 : s.song.num_events = s.song.native_events.length)
    (h3 : 1 ≤ s.song.num_events)
    (h4 : s.song.position = 0) :
    (∀ w ∈ (fillN n s).1, w.length = STREAM_MAX_EVENTS) ∧
    (fillN n s).1.flatten = (List.range (STREAM_MAX_EVENTS * n)).map (fun i =>
      adjustEvent s.volume_factor
        (s.song.native_events.getD (i % s.song.num_events) ⟨0, 0, 0⟩)) ∧
    ((∀ e ∈ s.song.native_events,
        ¬(MIDIEVENT_TYPE e.dwEvent = MIDI_EVENT_CONTROLLER ∧
          MIDIEVENT_DATA1 e.dwEvent = MIDI_CONTROLLER_MAIN_VOLUME)) →
      (fillN n s).1.flatten = (List.range (STREAM_MAX_EVENTS * n)).map (fun i =>
        s.song.native_events.getD (i % s.song.num_events) ⟨0, 0, 0⟩)) := by
  obtain ⟨b1, b2, _, _, _, _, _, _⟩ :=
    fillN_spec n s h1 h2 h3 (by rw [h4]; exact Nat.zero_le _)
  simp only [h4, Nat.zero_add] at b2
  refine ⟨b1, b2, ?_⟩
  intro hno
  rw [b2]
  apply List.map_congr_left
  intro i _
  apply adjustEvent_id
  have hlt : i % s.song.num_events < s.song.native_events.length := by
    rw [← h2]
    exact Nat.mod_lt i h3
  rw [List.getD_eq_getElem _ _ hlt]
  exact hno _ (List.getElem_mem hlt)

/-- A concrete looping 3-event song with the cursor at 0. -/
def fillDemoState : playerState :=
  ⟨⟨[⟨0, 0, 0x400190⟩, ⟨10, 0, 0x400290⟩, ⟨0, 0, 0x400390⟩], 3, 0, true⟩,
   List.replicate 16 100, 1⟩

/-- Witness for C5: two fills of the 3-event looping song stream indices
0,1,2,0, 1,2,0,1 of the array. -/
theorem fill_loop_cyclic_witness :
    (fillN 2 fillDemoState).1.flatten =
      (List.range (STREAM_MAX_EVENTS * 2)).map (fun i =>
        adjustEvent fillDemoState.volume_factor
          (fillDemoState.song.native_events.getD
            (i % fillDemoState.song.num_events) ⟨0, 0, 0⟩)) :=
  (fill_loop_cyclic fillDemoState 2 rfl (by decide) (by decide) rfl).2.1

/- ### C9: bounds and index safety -/

theorem setFactor_pos_eq (v : ℕ) (h0 : v ≠ 0) :
    setFactor v = 20 / 100 + ((75 / 100 - 20 / 100) / ((16 : ℚ) - 1)) * ((v - 1 : ℕ) : ℚ) := by
  have hS : ((SND_MAXVOLUME : ℕ) : ℚ) = 16 := by norm_num [SND_MAXVOLUME]
  simp only [setFactor, if_pos h0, hS]

theorem setFactor_bounds (v : ℕ) (hv : v ≤ SND_MAXVOLUME) :
    0 ≤ setFactor v ∧ setFactor v ≤ 1 ∧ (v = 0 → setFactor v = 0) ∧
    (1 ≤ v → 1 / 5 ≤ setFactor v ∧ setFactor v ≤ 3 / 4) := by
  by_cases h0 : v = 0
  · subst h0
    refine ⟨le_refl 0, ?_, fun _ => rfl, fun hh => absurd hh (by norm_num)⟩
    · show (0 : ℚ) ≤ 1
      norm_num
  · have h1 : 1 ≤ v := Nat.one_le_iff_ne_zero.mpr h0
    have h16 : v ≤ 16 := by
      have : SND_MAXVOLUME = 16 := rfl
      omega
    rw [setFactor_pos_eq v h0]
    have hc0 : (0 : ℚ) ≤ ((v - 1 : ℕ) : ℚ) := Nat.cast_nonneg _
    have hc15 : ((v - 1 : ℕ) : ℚ) ≤ 15 := by
      have h2 : v - 1 ≤ 15 := by omega
      exact_mod_cast h2
    refine ⟨by nlinarith, by nlinarith, fun hh => absurd hh h0,
      fun _ => ⟨by nlinarith, by nlinarith⟩⟩

theorem MIDIEVENT_VOLUME_le (x : ℕ) : MIDIEVENT_VOLUME x ≤ 127 := by
  unfold MIDIEVENT_VOLUME
  have h1 : x &&& 0x007F0000 ≤ 0x007F0000 := Nat.and_le_right
  calc (x &&& 0x007F0000) >>> 16 ≤ 0x007F0000 >>> 16 := by
        simp only [Nat.shiftRight_eq_div_pow]
        exact Nat.div_le_div_right h1
    _ = 127 := by decide

theorem channel_volume_set_le (l : List ℕ) (i x : ℕ)
    (hall : ∀ k, l.getD k 0 ≤ 127) (hx : x ≤ 127) :
    ∀ k, (l.set i x).getD k 0 ≤ 127 := by
  intro k
  by_cases hk : k < (l.set i x).length
  · rw [List.getD_eq_getElem _ _ hk, List.getElem_set]
    split
    · exact hx
    · have hk2 : k < l.length := by rw [List.length_set] at hk; exact hk
      rw [← List.getD_eq_getElem l 0 hk2]
      exact hall k
  · rw [List.getD_eq_getElem?_getD,
      List.getElem?_eq_none (by rw [List.length_set] at hk ⊢; omega)]
    simp

theorem FillStep_channel_le (s : playerState)
    (h : ∀ k, s.channel_volume.getD k 0 ≤ 127) :
    ∀ k, (FillStep s).2.channel_volume.getD k 0 ≤ 127 := by
  by_cases hc : MIDIEVENT_TYPE (s.song.native_events.getD s.song.position ⟨0, 0, 0⟩).dwEvent
      = MIDI_EVENT_CONTROLLER ∧
      MIDIEVENT_DATA1 (s.song.native_events.getD s.song.position ⟨0, 0, 0⟩).dwEvent
      = MIDI_CONTROLLER_MAIN_VOLUME
  · simp only [FillStep, if_pos hc]
    exact channel_volume_set_le _ _ _ h (MIDIEVENT_VOLUME_le _)
  · simp only [FillStep, if_neg hc]
    exact h

theorem fillAux_channel_le : ∀ (n : ℕ) (s : playerState),
    (∀ k, s.channel_volume.getD k 0 ≤ 127) →
    ∀ k, (FillBufferAux n s).2.channel_volume.getD k 0 ≤ 127 := by
  intro n
  induction n with
  | zero => intro s h k; exact h k
  | succ n ih =>
    intro s h k
    by_cases hpos : s.song.position ≥ s.song.num_events
    · by_cases hloop : s.song.looping = true
      · rw [fillAux_step_wrap n s hpos hloop]
        exact ih (FillStep { s with song := { s.song with position := 0 } }).2
          (FillStep_channel_le { s with song := { s.song with position := 0 } } h) k
      · have hl2 : s.song.looping = false := by
          cases hbool : s.song.looping
          · rfl
          · exact absurd hbool hloop
        have hstop : FillBufferAux (n + 1) s = ([], s) := by
          simp only [FillBufferAux, if_pos hpos, hl2, Bool.false_eq_true, if_false]
        rw [hstop]
        exact h k
    · rw [fillAux_step_copy n s hpos]
      exact ih _ (FillStep_channel_le _ h) k

theorem replicate_default_volume_le :
    ∀ k, (List.replicate MIDI_CHANNELS_PER_TRACK (100 : ℕ)).getD k 0 ≤ 127 := by
  intro k
  by_cases hk : k < (List.replicate MIDI_CHANNELS_PER_TRACK (100 : ℕ)).length
  · rw [List.getD_eq_getElem _ _ hk, List.getElem_replicate]
    norm_num
  · rw [List.getD_eq_getElem?_getD, List.getElem?_eq_none (by omega)]
    simp

theorem registerSong_channel_le (s : playerState)
    (file : Option (List (List midi_event_t))) (a b : Bool)
    (h : ∀ k, s.channel_volume.getD k 0 ≤ 127) :
    ∀ k, (I_WIN_RegisterSong s file a b).2.channel_volume.getD k 0 ≤ 127 := by
  match file with
  | none => exact h
  | some tracks =>
    match a, b with
    | false, _ => exact replicate_default_volume_le
    | true, false => exact replicate_default_volume_le
    | true, true =>
      show ∀ k, (FillBufferAux STREAM_MAX_EVENTS
        { s with
          channel_volume := List.replicate MIDI_CHANNELS_PER_TRACK 100,
          song := { s.song with
            native_events :=
              List.replicate s.song.num_events ⟨0, 0, 0⟩ ++ MIDItoStream tracks,
            num_events :=
              s.song.num_events + (MIDItoStream tracks).length } }).2.channel_volume.getD
                k 0 ≤ 127
      exact fillAux_channel_le STREAM_MAX_EVENTS _ replicate_default_volume_le

/-- C9: under the precondition that setVolume levels stay in
0..SND_MAXVOLUME, the scale factor always lies in [0, 1] (1.0 initially,
then exactly 0 for mute or within [0.20, 0.75]); every recorded channel
volume stays in 0..127 (the event volume field is masked to 7 bits,
registration resets to 100, fills preserve the bound); and every index
computed into the 128-entry correction table - the per-channel re-emission
in setVolume and the per-event substitution in fill - lies in 0..127, so
the lookup never reads out of bounds.  (Float arithmetic modelled as exact
rationals.) -/
theorem volume_index_safety :
    (0 ≤ volume_factor_init ∧ volume_factor_init ≤ 1) ∧
    (∀ v : ℕ, v ≤ SND_MAXVOLUME → 0 ≤ setFactor v ∧ setFactor v ≤ 1 ∧
      (v = 0 → setFactor v = 0) ∧
      (1 ≤ v → 1 / 5 ≤ setFactor v ∧ setFactor v ≤ 3 / 4)) ∧
    (∀ x : ℕ, MIDIEVENT_VOLUME x ≤ 127) ∧
    (∀ (s : playerState) (file : Option (List (List midi_event_t))) (a b : Bool),
      (∀ k, s.channel_volume.getD k 0 ≤ 127) →
      ∀ k, (I_WIN_RegisterSong s file a b).2.channel_volume.getD k 0 ≤ 127) ∧
    (∀ s : playerState, (∀ k, s.channel_volume.getD k 0 ≤ 127) →
      ∀ k, (FillBuffer s).2.channel_volume.getD k 0 ≤ 127) ∧
    (∀ (cv : ℕ) (f : ℚ), cv ≤ 127 → 0 ≤ f → f ≤ 1 → volIndex cv f ≤ 127) ∧
    (∀ (s : playerState) (v i : ℕ), v ≤ SND_MAXVOLUME →
      (∀ k, s.channel_volume.getD k 0 ≤ 127) →
      volIndex (s.channel_volume.getD i 0) (setFactor v) ≤ 127) ∧
    (∀ (e : native_event_t) (f : ℚ), 0 ≤ f → f ≤ 1 →
      volIndex (MIDIEVENT_VOLUME e.dwEvent) f ≤ 127) := by
  refine ⟨⟨by norm_num [volume_factor_init], by norm_num [volume_factor_init]⟩,
    fun v hv => setFactor_bounds v hv, MIDIEVENT_VOLUME_le,
    registerSong_channel_le, fun s h k => fillAux_channel_le STREAM_MAX_EVENTS s h k,
    volIndex_le, ?_, ?_⟩
  · intro s v i hv hall
    obtain ⟨b0, b1, _, _⟩ := setFactor_bounds v hv
    exact volIndex_le _ _ (hall i) b0 b1
  · intro e f hf0 hf1
    exact volIndex_le _ _ (MIDIEVENT_VOLUME_le _) hf0 hf1

/-- Witness for C9 at concrete inputs: level 8, the demo looping song
state, a full-scale controller event and factor 3/4. -/
theorem volume_index_safety_witness :
    (0 ≤ setFactor 8 ∧ setFactor 8 ≤ 1 ∧ ((8 : ℕ) = 0 → setFactor 8 = 0) ∧
      ((1 : ℕ) ≤ 8 → 1 / 5 ≤ setFactor 8 ∧ setFactor 8 ≤ 3 / 4)) ∧
    (FillBuffer fillDemoState).2.channel_volume.getD 0 0 ≤ 127 ∧
    (I_WIN_RegisterSong fillDemoState (some [[]]) true true).2.channel_volume.getD 0 0
      ≤ 127 ∧
    volIndex 127 (3 / 4) ≤ 127 ∧
    volIndex (fillDemoState.channel_volume.getD 0 0) (setFactor 8) ≤ 127 ∧
    volIndex (MIDIEVENT_VOLUME (⟨0, 0, 0xb07f07⟩ : native_event_t).dwEvent) (3 / 4)
      ≤ 127 :=
  ⟨volume_index_safety.2.1 8 (by norm_num [SND_MAXVOLUME]),
   volume_index_safety.2.2.2.2.1 fillDemoState replicate_default_volume_le 0,
   volume_index_safety.2.2.2.1 fillDemoState (some [[]]) true true
     replicate_default_volume_le 0,
   volume_index_safety.2.2.2.2.2.1 127 (3 / 4) (by norm_num) (by norm_num) (by norm_num),
   volume_index_safety.2.2.2.2.2.2.1 fillDemoState 8 0 (by norm_num [SND_MAXVOLUME])
     replicate_default_volume_le,
   volume_index_safety.2.2.2.2.2.2.2 ⟨0, 0, 0xb07f07⟩ (3 / 4) (by norm_num) (by norm_num)⟩
